import Mathlib

/-!
Shallow embedding of the excel-orm repository (src/column.py, src/orm.py).

Cells of a worksheet hold Python values: `None`, strings, ints, bools,
dates and datetimes.  We embed them as `Value`.  Machine behaviour of the
Python standard library that the source calls (`str`, `int`, `.strip()`,
`.upper()`, `datetime.fromisoformat`, `datetime.strptime`) is modelled by
explicit executable functions below; each is documented at its definition.
-/

/-- Decidable equality for `Except` results. -/
instance exceptDecEq {ε α : Type} [DecidableEq ε] [DecidableEq α] :
    DecidableEq (Except ε α)
  | .ok x, .ok y =>
      if h : x = y then .isTrue (h ▸ rfl)
      else .isFalse (fun c => h (Except.ok.inj c))
  | .error x, .error y =>
      if h : x = y then .isTrue (h ▸ rfl)
      else .isFalse (fun c => h (Except.error.inj c))
  | .ok _, .error _ => .isFalse (fun c => Except.noConfusion c)
  | .error _, .ok _ => .isFalse (fun c => Except.noConfusion c)

/-- A calendar date (what `datetime.date` carries). -/
structure Date where
  year : Nat
  month : Nat
  day : Nat
deriving DecidableEq, Repr

/-- Raw cell / Python values flowing through the mapper. -/
inductive Value where
  | none
  | str (s : String)
  | int (n : Int)
  | bool (b : Bool)
  | date (d : Date)
  | datetime (d : Date) (hour minute second : Nat)
deriving DecidableEq, Repr

/-- Zero-pad a natural to two digits (used by Python `str(date)`). -/
def pad2 (n : Nat) : String :=
  if n < 10 then "0" ++ toString n else toString n

/-- Zero-pad a natural to four digits (used by Python `str(date)`). -/
def pad4 (n : Nat) : String :=
  if n < 10 then "000" ++ toString n
  else if n < 100 then "00" ++ toString n
  else if n < 1000 then "0" ++ toString n
  else toString n

/-- Python `str(...)` on a date: ISO form `YYYY-MM-DD`. -/
def dateToStr (d : Date) : String :=
  pad4 d.year ++ "-" ++ pad2 d.month ++ "-" ++ pad2 d.day

/-- Python `str(...)` on the values we model. -/
def pyStr : Value → String
  | .none => "None"
  | .str s => s
  | .int n => toString n
  | .bool b => if b then "True" else "False"
  | .date d => dateToStr d
  | .datetime d h mi s =>
      dateToStr d ++ " " ++ pad2 h ++ ":" ++ pad2 mi ++ ":" ++ pad2 s

/-- Python `==` on the values we model (`1 == True`, `0 == False`;
a `date` never equals a `datetime`; `None` equals only `None`). -/
def pyEq : Value → Value → Bool
  | .none, .none => true
  | .str a, .str b => a = b
  | .int a, .int b => a = b
  | .bool a, .bool b => a = b
  | .int a, .bool b => a = (if b then (1 : Int) else 0)
  | .bool a, .int b => (if a then (1 : Int) else 0) = b
  | .date a, .date b => a = b
  | .datetime a h1 m1 s1, .datetime b h2 m2 s2 =>
      a = b ∧ h1 = h2 ∧ m1 = m2 ∧ s1 = s2
  | _, _ => false

/-- Python `.strip()`: drop leading and trailing whitespace.  (Defined over
the character list so that it evaluates by kernel reduction; ASCII
whitespace, which covers every input this repository handles.) -/
def pyStrip (s : String) : String :=
  String.mk
    (((s.toList.dropWhile Char.isWhitespace).reverse.dropWhile Char.isWhitespace).reverse)

/-- Python `.endswith("s")`: the last character is `s`. -/
def endsWithS (s : String) : Bool :=
  match s.toList.getLast? with
  | some c => c = 's'
  | Option.none => false

/-- `_normalize_header` (orm.py): `None` → `""`, else `str(v).strip()`. -/
def normalizeHeader (v : Value) : String :=
  match v with
  | .none => ""
  | v => pyStrip (pyStr v)

/-- `_row_is_blank` (orm.py): every value normalizes to the empty string. -/
def rowIsBlank (values : List Value) : Bool :=
  values.all (fun v => normalizeHeader v = "")

/-- ASCII lower-casing of a string (Python `.lower()` on the inputs we model). -/
def strLower (s : String) : String :=
  String.mk (s.toList.map Char.toLower)

/-- ASCII upper-casing of a string (Python `.upper()` on the inputs we model). -/
def strUpper (s : String) : String :=
  String.mk (s.toList.map Char.toUpper)

/-- Numeric value of a digit character. -/
def digitVal (c : Char) : Nat := c.toNat - 48

/-- Modelled from the Python builtin `int(str)`: strip whitespace, optional
sign, then one or more decimal digits (underscore digit-grouping is not
modelled).  Fails on anything else. -/
def strToInt (s : String) : Except String Int :=
  let t := (pyStrip s).toList
  let core : List Char → Option Nat := fun ds =>
    if ds ≠ [] ∧ ds.all Char.isDigit then
      some (ds.foldl (fun acc c => 10 * acc + digitVal c) 0)
    else Option.none
  match t with
  | '-' :: rest =>
      match core rest with
      | some n => .ok (-(n : Int))
      | Option.none => .error ("invalid literal for int: " ++ s)
  | '+' :: rest =>
      match core rest with
      | some n => .ok (n : Int)
      | Option.none => .error ("invalid literal for int: " ++ s)
  | ds =>
      match core ds with
      | some n => .ok (n : Int)
      | Option.none => .error ("invalid literal for int: " ++ s)

/-- Python `int(raw)` on a non-None, non-empty raw value
(`int(True) = 1`; dates are not convertible). -/
def pyInt : Value → Except String Int
  | .int n => .ok n
  | .bool b => .ok (if b then 1 else 0)
  | .str s => strToInt s
  | v => .error ("int() argument invalid: " ++ pyStr v)

/-- Is a year a (Gregorian) leap year. -/
def isLeap (y : Nat) : Bool :=
  y % 4 = 0 ∧ (y % 100 ≠ 0 ∨ y % 400 = 0)

/-- Days in a month of a year. -/
def daysInMonth (y m : Nat) : Nat :=
  if m = 2 then (if isLeap y then 29 else 28)
  else if m = 4 ∨ m = 6 ∨ m = 9 ∨ m = 11 then 30
  else 31

/-- Validity of a `datetime.date(y, m, d)` construction. -/
def validDate (y m d : Nat) : Bool :=
  1 ≤ y ∧ y ≤ 9999 ∧ 1 ≤ m ∧ m ≤ 12 ∧ 1 ≤ d ∧ d ≤ daysInMonth y m

/-- Read exactly `k` decimal digits; return their value and the rest. -/
def takeDigits : Nat → List Char → Option (Nat × List Char)
  | 0, cs => some (0, cs)
  | _ + 1, [] => Option.none
  | k + 1, c :: cs =>
      if c.isDigit then
        match takeDigits k cs with
        | some (v, rest) => some (digitVal c * 10 ^ k + v, rest)
        | Option.none => Option.none
      else Option.none

/-- Time-of-day tail accepted after an ISO date (`HH[:MM[:SS[.digits]]]`
with an optional `Z` / `±HH:MM[:SS]` offset). -/
def isoTimeTail (cs : List Char) : Bool :=
  let frac : List Char → Option (List Char) := fun l =>
    match l with
    | '.' :: r =>
        let ds := r.takeWhile Char.isDigit
        if ds ≠ [] then some (r.drop ds.length) else Option.none
    | ',' :: r =>
        let ds := r.takeWhile Char.isDigit
        if ds ≠ [] then some (r.drop ds.length) else Option.none
    | l => some l
  let offset : List Char → Bool := fun l =>
    match l with
    | [] => true
    | ['Z'] => true
    | ['z'] => true
    | sgn :: r =>
        (sgn == '+' || sgn == '-') &&
        (match takeDigits 2 r with
         | some (h, r2) =>
            decide (h ≤ 23) &&
            (match r2 with
             | ':' :: r3 =>
                 (match takeDigits 2 r3 with
                  | some (mi, r4) => decide (mi ≤ 59) && r4.isEmpty
                  | Option.none => false)
             | r3 =>
                 (match takeDigits 2 r3 with
                  | some (mi, r4) => decide (mi ≤ 59) && r4.isEmpty
                  | Option.none => false))
         | Option.none => false)
  match takeDigits 2 cs with
  | some (h, r1) =>
      decide (h ≤ 23) &&
      (match r1 with
       | ':' :: r2 =>
           (match takeDigits 2 r2 with
            | some (mi, r3) =>
                decide (mi ≤ 59) &&
                (match r3 with
                 | ':' :: r4 =>
                     (match takeDigits 2 r4 with
                      | some (sec, r5) =>
                          decide (sec ≤ 59) &&
                          (match frac r5 with
                           | some r6 => offset r6
                           | Option.none => false)
                      | Option.none => false)
                 | r4 => offset r4)
            | Option.none => false)
       | r2 => offset r2)
  | Option.none => false

/-- Modelled from the Python stdlib `datetime.fromisoformat`, restricted to
the extended format `YYYY-MM-DD` optionally followed by a single separator
character and a time-of-day (the only shapes this repository's inputs use;
basic `YYYYMMDD` and week-date forms are not modelled).  Returns the date
component on success. -/
def isoParse (s : String) : Option Date :=
  match takeDigits 4 s.toList with
  | some (y, '-' :: r1) =>
      (match takeDigits 2 r1 with
       | some (mo, '-' :: r2) =>
           (match takeDigits 2 r2 with
            | some (d, rest) =>
                if validDate y mo d then
                  match rest with
                  | [] => some ⟨y, mo, d⟩
                  | _ :: tl => if isoTimeTail tl then some ⟨y, mo, d⟩ else Option.none
                else Option.none
            | _ => Option.none)
       | _ => Option.none)
  | _ => Option.none

/-- Tokens of the `strptime` patterns used by `date_column._DATE_FORMATS`:
`%d`, `%m`, `%y`, `%Y`, `%b`, and the literal separators (a whitespace
literal in a `strptime` format matches one or more whitespace characters). -/
inductive Tok where
  | d | m | y2 | y4 | mon | dash | slash | sp
deriving DecidableEq, Repr

/-- Candidate matches of `%d` (regex `3[01]|[12]\d|0[1-9]|[1-9]`, alternatives
in regex order, each candidate paired with the remaining input). -/
def dayCands : List Char → List (Nat × List Char)
  | c1 :: c2 :: rest =>
      (if c1 = '3' ∧ (c2 = '0' ∨ c2 = '1') then [(30 + digitVal c2, rest)] else []) ++
      (if (c1 = '1' ∨ c1 = '2') ∧ c2.isDigit then [(10 * digitVal c1 + digitVal c2, rest)] else []) ++
      (if c1 = '0' ∧ '1' ≤ c2 ∧ c2 ≤ '9' then [(digitVal c2, rest)] else []) ++
      (if '1' ≤ c1 ∧ c1 ≤ '9' then [(digitVal c1, c2 :: rest)] else [])
  | [c1] => if '1' ≤ c1 ∧ c1 ≤ '9' then [(digitVal c1, [])] else []
  | [] => []

/-- Candidate matches of `%m` (regex `1[0-2]|0[1-9]|[1-9]`). -/
def monthCands : List Char → List (Nat × List Char)
  | c1 :: c2 :: rest =>
      (if c1 = '1' ∧ '0' ≤ c2 ∧ c2 ≤ '2' then [(10 + digitVal c2, rest)] else []) ++
      (if c1 = '0' ∧ '1' ≤ c2 ∧ c2 ≤ '9' then [(digitVal c2, rest)] else []) ++
      (if '1' ≤ c1 ∧ c1 ≤ '9' then [(digitVal c1, c2 :: rest)] else [])
  | [c1] => if '1' ≤ c1 ∧ c1 ≤ '9' then [(digitVal c1, [])] else []
  | [] => []

/-- `%y` two-digit year with Python's century mapping (00-68 → 2000s). -/
def mapY2 (v : Nat) : Nat :=
  if v ≤ 68 then 2000 + v else 1900 + v

/-- Month abbreviations recognized by `%b` (input has been upper-cased). -/
def monthAbbrevs : List (String × Nat) :=
  [("JAN", 1), ("FEB", 2), ("MAR", 3), ("APR", 4), ("MAY", 5), ("JUN", 6),
   ("JUL", 7), ("AUG", 8), ("SEP", 9), ("OCT", 10), ("NOV", 11), ("DEC", 12)]

/-- Candidate match of `%b`: a three-letter month abbreviation
(case-insensitive; the caller has upper-cased the input already). -/
def monCands : List Char → List (Nat × List Char)
  | c1 :: c2 :: c3 :: rest =>
      let w := String.mk [c1.toUpper, c2.toUpper, c3.toUpper]
      match (monthAbbrevs.find? (fun p => decide (p.1 = w))) with
      | some p => [(p.2, rest)]
      | Option.none => []
  | _ => []

/-- Fields accumulated while matching a `strptime` pattern. -/
structure DF where
  dd : Option Nat
  mm : Option Nat
  yy : Option Nat
deriving DecidableEq, Repr

/-- One token step: all candidate `(fields, rest)` continuations, in the
order the `strptime` regex engine would try them. -/
def stepTok (a : DF) : Tok → List Char → List (DF × List Char)
  | .d, cs => (dayCands cs).map (fun p => (⟨some p.1, a.mm, a.yy⟩, p.2))
  | .m, cs => (monthCands cs).map (fun p => (⟨a.dd, some p.1, a.yy⟩, p.2))
  | .y2, cs =>
      (match takeDigits 2 cs with
       | some (v, rest) => [((⟨a.dd, a.mm, some (mapY2 v)⟩ : DF), rest)]
       | Option.none => [])
  | .y4, cs =>
      (match takeDigits 4 cs with
       | some (v, rest) => [((⟨a.dd, a.mm, some v⟩ : DF), rest)]
       | Option.none => [])
  | .mon, cs => (monCands cs).map (fun p => (⟨a.dd, some p.1, a.yy⟩, p.2))
  | .dash, cs =>
      (match cs with
       | '-' :: rest => [(a, rest)]
       | _ => [])
  | .slash, cs =>
      (match cs with
       | '/' :: rest => [(a, rest)]
       | _ => [])
  | .sp, cs =>
      -- a whitespace literal matches like the regex \s+:
      -- greedy (longest run first), backtracking to shorter nonempty runs
      let n := (cs.takeWhile Char.isWhitespace).length
      (List.range n).map (fun k => (a, cs.drop (n - k)))

/-- Run a token list over the input, returning every complete match
(input fully consumed), in backtracking order. -/
def runToks : List Tok → DF → List Char → List DF
  | [], a, cs => if cs = [] then [a] else []
  | t :: ts, a, cs => (stepTok a t cs).flatMap (fun p => runToks ts p.1 p.2)

/-- Modelled from the Python stdlib `datetime.strptime` restricted to the
tokens of `_DATE_FORMATS`: take the first complete regex match, then
construct the date, failing if the field values do not form a valid date. -/
def strptimeDate (fmt : List Tok) (s : String) : Option Date :=
  match (runToks fmt ⟨Option.none, Option.none, Option.none⟩ s.toList).head? with
  | some a =>
      (match a.dd, a.mm, a.yy with
       | some d, some mo, some y =>
           if validDate y mo d then some ⟨y, mo, d⟩ else Option.none
       | _, _, _ => Option.none)
  | Option.none => Option.none

/-- `date_column._DATE_FORMATS` (column.py), in source order. -/
def DATE_FORMATS : List (List Tok) :=
  [[.d, .dash, .mon, .dash, .y4],    -- %d-%b-%Y   01-JUN-2025
   [.d, .dash, .mon, .dash, .y2],    -- %d-%b-%y   01-JUN-25
   [.d, .sp, .mon, .sp, .y4],        -- %d %b %Y   01 JUN 2025
   [.d, .sp, .mon, .sp, .y2],        -- %d %b %y   01 JUN 25
   [.d, .slash, .mon, .slash, .y4],  -- %d/%b/%Y   01/JUN/2025
   [.y4, .dash, .m, .dash, .d],      -- %Y-%m-%d   2025-06-01
   [.y4, .slash, .m, .slash, .d],    -- %Y/%m/%d   2025/06/01
   [.m, .slash, .d, .slash, .y4],    -- %m/%d/%Y   06/01/2025
   [.m, .slash, .d, .slash, .y2],    -- %m/%d/%y   06/01/25
   [.d, .slash, .m, .slash, .y4],    -- %d/%m/%Y   01/06/2025
   [.d, .slash, .m, .slash, .y2]]    -- %d/%m/%y   01/06/25

/-- The format-list loop of `date_column.parse`: first success wins. -/
def tryFormats : List (List Tok) → String → Option Date
  | [], _ => Option.none
  | f :: fs, s =>
      match strptimeDate f s with
      | some d => some d
      | Option.none => tryFormats fs s

/-- Quote character (Python `repr` of a string). -/
def quoteCh : Char := Char.ofNat 39

/-- Python `repr` of a raw value, as far as error messages need it. -/
def pyRepr : Value → String
  | .str s => String.singleton quoteCh ++ s ++ String.singleton quoteCh
  | v => pyStr v

/-- `text_column`'s `parse` (column.py): `None` → `""`, else stringify and,
when `strip` is set, trim. -/
def textParse (strip : Bool) (raw : Value) : String :=
  match raw with
  | .none => ""
  | v => if strip then pyStrip (pyStr v) else pyStr v

/-- `int_column`'s `parse` (column.py): `None` or `""` → `0`, else `int(raw)`. -/
def intParse (raw : Value) : Except String Int :=
  match raw with
  | .none => .ok 0
  | v => if pyEq v (.str "") then .ok 0 else pyInt v

/-- `bool_column`'s `parse` (column.py). -/
def boolParse (raw : Value) : Except String Bool :=
  match raw with
  | .none => .ok false
  | .bool b => if pyEq (.bool b) (.str "") then .ok false else .ok b
  | v =>
      if pyEq v (.str "") then .ok false
      else
        let s := strLower (pyStrip (pyStr v))
        if s = "true" ∨ s = "t" ∨ s = "yes" ∨ s = "y" ∨ s = "1" then .ok true
        else if s = "false" ∨ s = "f" ∨ s = "no" ∨ s = "n" ∨ s = "0" then .ok false
        else .error ("Invalid boolean: " ++ pyStr v)

/-- `date_column`'s `parse` (column.py): empty → error; native date passes;
native datetime truncates; otherwise strip, try `fromisoformat`, then the
fixed pattern list on the upper-cased string. -/
def dateParse (raw : Value) : Except String Date :=
  match raw with
  | .none => .error "Date Value was empty"
  -- (a date or datetime is never `== ""`, so the emptiness guard is vacuous here)
  | .date d => .ok d
  | .datetime d _ _ _ => .ok d
  | v =>
      if pyEq v (.str "") then .error "Date Value was empty"
      else
        let s := pyStrip (pyStr v)
        if s = "" then .error "Date Value was empty"
        else
          match isoParse s with
          | some d => .ok d
          | Option.none =>
              let sNorm := strUpper s
              match tryFormats DATE_FORMATS sNorm with
              | some d => .ok d
              | Option.none => .error ("Invalid date value: " ++ pyRepr v)

/-!
## The ORM layer (`src/orm.py`)
-/

/-- The coercion kind a built-in column constructor installs as its parser;
the built-in constructors (`text_column`, `int_column`, `bool_column`,
`date_column`) install no custom validator, so the per-column `validator`
is the always-passing default and is not carried here. -/
inductive ColKind where
  | text (strip : Bool)
  | int
  | bool
  | date
deriving DecidableEq, Repr

/-- `ColumnSpec` (column.py) as built by the built-in column constructors. -/
structure ColumnSpec where
  header : Option String
  index : Option Nat
  default : Value
  required : Bool
  notNull : Bool
  excludes : List Value
deriving DecidableEq, Repr

/-- A `Column` descriptor after `__set_name__` bound it to a field name. -/
structure Column where
  name : String
  kind : ColKind
  spec : ColumnSpec
deriving DecidableEq, Repr

/-- `Column.parse_cell`: dispatch to the constructor-installed parser. -/
def parseCell (c : Column) (raw : Value) : Except String Value :=
  match c.kind with
  | .text strip => .ok (.str (textParse strip raw))
  | .int => (intParse raw).map Value.int
  | .bool => (boolParse raw).map Value.bool
  | .date => (dateParse raw).map Value.date

/-- `Column.validate`: the not-null check (the built-in constructors leave
the custom validator at its always-passing default). -/
def colValidate (c : Column) (v : Value) : Except String Unit :=
  if c.spec.notNull ∧ (v = .none ∨ pyEq v (.str "")) then
    .error (c.name ++ " cannot be null/empty")
  else .ok ()

/-- A record's field storage (`obj._values`), an insertion-ordered map. -/
abbrev Record := List (String × Value)

/-- A record model class: its `__name__`, its declared `Column`s in
annotation order (`_get_model_columns`), an identity tag standing for
Python object identity (the key of `self._repos`), and the optional
whole-record `validate` hook (`None` = no error). -/
structure Model where
  id : Nat
  name : String
  columns : List Column
  validateHook : Option (Record → Option String)

/-- Python dict assignment `obj._values[k] = v`: update in place if the key
exists, else append. -/
def setVal : Record → String → Value → Record
  | [], k, v => [(k, v)]
  | (k', v') :: rest, k, v =>
      if k' = k then (k, v) :: rest else (k', v') :: setVal rest k v

/-- `_instantiate_model` (orm.py): fresh storage holding each column's default. -/
def instantiateModel (m : Model) : Record :=
  m.columns.foldl (fun r c => setVal r c.name c.spec.default) []

/-- The `setattr` loop of `_parse_sheet`: parse each cell and set the field
(each set runs that column's validation); first failure propagates. -/
def setFields : Record → List (Column × Value) → Except String Record
  | r, [] => .ok r
  | r, (c, raw) :: rest =>
      match parseCell c raw with
      | .error e => .error e
      | .ok parsed =>
          match colValidate c parsed with
          | .error e => .error e
          | .ok _ => setFields (setVal r c.name parsed) rest

/-- Construct one record from a row's raw values: defaults, then the field
loop, then the optional whole-record `validate` hook. -/
def buildRecord (m : Model) (vals : List Value) : Except String Record :=
  match setFields (instantiateModel m) (m.columns.zip vals) with
  | .error e => .error e
  | .ok r =>
      match m.validateHook with
      | some h =>
          (match h r with
           | some e => .error e
           | Option.none => .ok r)
      | Option.none => .ok r

/-- A worksheet as the loader sees it: raw value by (row, column), both
1-based, unset cells reading `None`; `max_row`/`max_column` as openpyxl
reports them. -/
structure Sheet where
  cell : Nat → Nat → Value
  maxRow : Nat
  maxCol : Nat

/-- A workbook: its sheet names and a sheet per name. -/
structure Workbook where
  sheetnames : List String
  sheet : String → Sheet

/-- `SheetSpec` (orm.py).  Row numbers, column cursor and the inter-block
gap are naturals: the coordinates are 1-based spreadsheet positions, which
openpyxl requires to be positive. -/
structure SheetSpec where
  name : String
  models : List Model
  titleRow : Nat
  headerRow : Nat
  dataStartRow : Nat
  templateTableGap : Nat

/-- `_repo_name_for_model`: pluralize the snake-cased class name.
First regex pass of `_camel_to_snake`: `(.)([A-Z][a-z]+)` → `\1_\2`,
leftmost non-overlapping, the `[a-z]+` greedy. -/
def snakePass1Go : Nat → List Char → List Char
  | 0, cs => cs
  | fuel + 1, cs =>
      match cs with
      | c1 :: c2 :: c3 :: rest =>
          if ('A' ≤ c2 ∧ c2 ≤ 'Z') ∧ ('a' ≤ c3 ∧ c3 ≤ 'z') then
            let lows := rest.takeWhile (fun c => 'a' ≤ c ∧ c ≤ 'z')
            c1 :: '_' :: c2 :: c3 :: lows ++ snakePass1Go fuel (rest.drop lows.length)
          else c1 :: snakePass1Go fuel (c2 :: c3 :: rest)
      | cs => cs

/-- First regex pass driver: each fuel unit consumes at least one input
character, so fuel equal to the input length never runs out. -/
def snakePass1 (cs : List Char) : List Char := snakePass1Go cs.length cs

/-- Second regex pass of `_camel_to_snake`: `([a-z0-9])([A-Z])` → `\1_\2`. -/
def snakePass2 : List Char → List Char
  | c1 :: c2 :: rest =>
      if (('a' ≤ c1 ∧ c1 ≤ 'z') ∨ ('0' ≤ c1 ∧ c1 ≤ '9')) ∧ ('A' ≤ c2 ∧ c2 ≤ 'Z') then
        c1 :: '_' :: c2 :: snakePass2 rest
      else c1 :: snakePass2 (c2 :: rest)
  | cs => cs

/-- `_camel_to_snake` (orm.py). -/
def camelToSnake (s : String) : String :=
  strLower (String.mk (snakePass2 (snakePass1 s.toList)))

/-- `_pluralize` (orm.py): append `"s"` unless the name already ends in it. -/
def pluralize (s : String) : String :=
  if endsWithS s then s else s ++ "s"

/-- `_repo_name_for_model` (orm.py). -/
def repoNameForModel (m : Model) : String :=
  pluralize (camelToSnake m.name)

/-- Python `.title()`: upper-case each cased character that follows an
uncased one, lower-case the rest. -/
def pyTitleGo : Bool → List Char → List Char
  | _, [] => []
  | prevAlpha, c :: rest =>
      (if c.isAlpha then (if prevAlpha then c.toLower else c.toUpper) else c)
        :: pyTitleGo c.isAlpha rest

/-- `_display_name_for_model` (orm.py): repo name with `_` → space, titled. -/
def displayNameForModel (m : Model) : String :=
  String.mk (pyTitleGo false
    (((repoNameForModel m).toList.map (fun c => if c = '_' then ' ' else c))))

/-- `Repository` content: the ordered record list of one model. -/
abbrev Repo := List Record

/-- `Repository.all` returns `list(self)`: a new list built by iterating
the repository front to back (so the caller never aliases the repository's
own storage). -/
def repositoryAll : Repo → List Record
  | [] => []
  | r :: rest => r :: repositoryAll rest

/-- The attribute names an `ExcelFile` instance already has when the
registration loop of `__init__` starts probing with `hasattr`: the two
instance attributes assigned before the loop.  (Derived repo names always
end in `"s"`, and no method of `ExcelFile` nor inherited `object` dunder
ends in `"s"`, so these two are the only pre-existing names reachable.) -/
def reservedNames : List String := ["sheets", "_repos"]

/-- The registration loop of `ExcelFile.__init__`: walk every
(sheet, model) occurrence in order, fail on a `hasattr` collision, else
register an empty repository keyed by model identity and expose it under
the derived name. -/
def registerModels (used : List String) (repos : List (Nat × Repo))
    (exposed : List (String × Nat)) :
    List Model → Except String (List (Nat × Repo) × List (String × Nat))
  | [] => .ok (repos, exposed)
  | m :: ms =>
      let rn := repoNameForModel m
      if rn ∈ used then
        .error ("Duplicate repo name " ++ String.singleton quoteCh ++ rn ++
                String.singleton quoteCh ++ " for model " ++ m.name)
      else
        registerModels (rn :: used) (repos ++ [(m.id, [])])
          (exposed ++ [(rn, m.id)]) ms

/-- The (sheet, model) occurrences in the order `__init__` iterates them. -/
def allModels : List SheetSpec → List Model
  | [] => []
  | s :: rest => s.models ++ allModels rest

/-- `ExcelFile.__init__`: build the repositories (no file I/O happens). -/
def buildRepos (sheets : List SheetSpec) :
    Except String (List (Nat × Repo) × List (String × Nat)) :=
  registerModels reservedNames [] [] (allModels sheets)

/-- Expected header labels of a model (`_find_header`):
`_normalize_header(c.spec.header)` per column, in schema order. -/
def expectedHeaders (m : Model) : List String :=
  m.columns.map (fun c =>
    match c.spec.header with
    | some h => normalizeHeader (.str h)
    | Option.none => normalizeHeader .none)

/-- The width-many normalized header cells at `(headerRow, sc ..)`. -/
def headerAt (ws : Sheet) (r sc width : Nat) : List String :=
  (List.range width).map (fun j => normalizeHeader (ws.cell r (sc + j)))

/-- `ExcelFile._find_header`: an empty schema is never searched for; else
scan candidate start columns `1 .. max_column - width + 1` in order and
return the first exact positional match as `(header_row, start_col)`. -/
def findHeader (ws : Sheet) (spec : SheetSpec) (m : Model) : Option (Nat × Nat) :=
  if expectedHeaders m = [] then Option.none
  else
    ((List.range' 1 (ws.maxCol + 1 - (expectedHeaders m).length)).find?
        (fun sc =>
          decide (headerAt ws spec.headerRow sc (expectedHeaders m).length =
            expectedHeaders m))).map
      (fun sc => (spec.headerRow, sc))

/-- The width-many raw cell values of one data row. -/
def rowVals (ws : Sheet) (r sc width : Nat) : List Value :=
  (List.range width).map (fun j => ws.cell r (sc + j))

/-- The exclusion test of `_parse_sheet`: some column's raw value is a
member (Python `in`, i.e. `==` against each element) of that column's
(nonempty) exclusion set. -/
def excludedRow (cols : List Column) (vals : List Value) : Bool :=
  (cols.zip vals).any (fun p =>
    decide (p.1.spec.excludes ≠ []) && p.1.spec.excludes.any (fun e => pyEq p.2 e))

/-- The row loop of `_parse_sheet` over the listed row numbers: stop at the
first entirely blank row; skip excluded rows; build and append records;
a build failure aborts, keeping the records appended before it. -/
def parseRows (ws : Sheet) (sc : Nat) (m : Model) :
    List Nat → List Record × Option String
  | [] => ([], Option.none)
  | r :: rest =>
      let vals := rowVals ws r sc m.columns.length
      if rowIsBlank vals then ([], Option.none)
      else if excludedRow m.columns vals then parseRows ws sc m rest
      else
        match buildRecord m vals with
        | .error e => ([], some e)
        | .ok obj =>
            let p := parseRows ws sc m rest
            (obj :: p.1, p.2)

/-- The repository state of an orchestrator: records per model identity. -/
abbrev RepoState := List (Nat × Repo)

/-- Update the repository of one model identity. -/
def updateRepo (st : RepoState) (id : Nat) (f : Repo → Repo) : RepoState :=
  st.map (fun p => if p.1 = id then (p.1, f p.2) else p)

/-- Look up the repository of one model identity. -/
def lookupRepo (st : RepoState) (id : Nat) : Option Repo :=
  (st.find? (fun p => decide (p.1 = id))).map (fun p => p.2)

/-- The row numbers the `while r <= ws.max_row` loop visits. -/
def dataRows (ws : Sheet) (spec : SheetSpec) : List Nat :=
  List.range' spec.dataStartRow (ws.maxRow + 1 - spec.dataStartRow)

/-- `ExcelFile._parse_sheet`: per model, locate the header block (a miss
skips the model), run the row loop, append the records; an error aborts the
sheet, keeping the state already written. -/
def parseModels (ws : Sheet) (spec : SheetSpec) (st : RepoState) :
    List Model → RepoState × Option String
  | [] => (st, Option.none)
  | m :: ms =>
      match findHeader ws spec m with
      | Option.none => parseModels ws spec st ms
      | some found =>
          let p := parseRows ws found.2 m (dataRows ws spec)
          let st' := updateRepo st m.id (fun old => old ++ p.1)
          match p.2 with
          | some e => (st', some e)
          | Option.none => parseModels ws spec st' ms

/-- The error message of the missing-sheet check in `load_data`. -/
def missingMsg (name : String) : String :=
  "Workbook missing sheet " ++ String.singleton quoteCh ++ name ++
    String.singleton quoteCh

/-- The per-sheet loop of `load_data`: a spec whose sheet name is absent
raises (keeping the state mutated so far); otherwise the sheet is parsed. -/
def loadSheets (wb : Workbook) (st : RepoState) :
    List SheetSpec → RepoState × Option String
  | [] => (st, Option.none)
  | s :: rest =>
      if s.name ∈ wb.sheetnames then
        match parseModels (wb.sheet s.name) s st s.models with
        | (st', Option.none) => loadSheets wb st' rest
        | (st', some e) => (st', some e)
      else (st, some (missingMsg s.name))

/-- Clear every repository (the `repo.clear()` loop of `load_data`). -/
def clearRepos (st : RepoState) : RepoState :=
  st.map (fun p => (p.1, []))

/-- `ExcelFile.load_data`: open the workbook, clear every repository, then
process the sheet specs in order.  The returned state is the repository
state when the call returns or raises; the second component is the raised
error, if any. -/
def loadData (sheets : List SheetSpec) (st : RepoState) (wb : Workbook) :
    RepoState × Option String :=
  loadSheets wb (clearRepos st) sheets

/-!
## Template generation (`ExcelFile._write_sheet_template`)

Writes to the generated sheet are modelled positionally: the header labels
written on the header row, and the (merged) title anchors written on the
title row.  The embedding assumes `title_row ≠ header_row` — with the two
rows equal, openpyxl would refuse the header writes into the merged title
range — and the theorems about the template hypothesize it.
-/

/-- The labels `_write_sheet_template` writes for one model:
`c.spec.header or c.name` (the field name when the header is `None` or
the empty string, both falsy in Python). -/
def headerLabels (m : Model) : List String :=
  m.columns.map (fun c =>
    match c.spec.header with
    | some h => if h = "" then c.name else h
    | Option.none => c.name)

/-- The header-row writes of one block: label `j` at column `sc + j`. -/
def blockWrites (sc : Nat) : List String → List (Nat × String)
  | [] => []
  | l :: ls => (sc, l) :: blockWrites (sc + 1) ls

/-- Every model of a sheet spec paired with the start column the running
cursor gives it (`current_col` starts at 1 and advances by
`width + template_table_gap` after each block). -/
def blockStarts (gap : Nat) : Nat → List Model → List (Model × Nat)
  | _, [] => []
  | cur, m :: ms =>
      (m, cur) :: blockStarts gap (cur + (headerLabels m).length + gap) ms

/-- All header-row writes of `_write_sheet_template`, in write order. -/
def headerWritesAux (gap : Nat) : Nat → List Model → List (Nat × String)
  | _, [] => []
  | cur, m :: ms =>
      blockWrites cur (headerLabels m) ++
        headerWritesAux gap (cur + (headerLabels m).length + gap) ms

/-- All title-row anchor writes (the merged title cell's top-left). -/
def titleWritesAux (gap : Nat) : Nat → List Model → List (Nat × String)
  | _, [] => []
  | cur, m :: ms =>
      (cur, displayNameForModel m) ::
        titleWritesAux gap (cur + (headerLabels m).length + gap) ms

/-- Look a written column up (the written columns are pairwise distinct,
so order of lookup is immaterial). -/
def lookupCol (writes : List (Nat × String)) (c : Nat) : Option String :=
  (writes.find? (fun p => decide (p.1 = c))).map (fun p => p.2)

/-- The largest written column (openpyxl `max_column`, 1 when nothing is
written). -/
def maxColOf (writes : List (Nat × String)) : Nat :=
  writes.foldr (fun p acc => max p.1 acc) 1

/-- The sheet `_write_sheet_template` produces for a spec. -/
def genSheet (spec : SheetSpec) : Sheet :=
  let hw := headerWritesAux spec.templateTableGap 1 spec.models
  let tw := titleWritesAux spec.templateTableGap 1 spec.models
  { cell := fun r c =>
      if r = spec.headerRow then
        match lookupCol hw c with
        | some s => .str s
        | Option.none => .none
      else if r = spec.titleRow then
        match lookupCol tw c with
        | some s => .str s
        | Option.none => .none
      else .none
    maxRow := if spec.models.isEmpty then 1 else max 1 (max spec.titleRow spec.headerRow)
    maxCol := max (maxColOf hw) (maxColOf tw) }

/-- `ExcelFile.generate_template`: one generated sheet per spec. -/
def generateTemplate (sheets : List SheetSpec) : Workbook :=
  { sheetnames := sheets.map (fun s => s.name)
    sheet := fun n =>
      match sheets.find? (fun s => decide (s.name = n)) with
      | some s => genSheet s
      | Option.none => ⟨fun _ _ => .none, 1, 1⟩ }

/-!
## Concrete fixtures

The `Car` / `ManufacturingPlant` schema of the repository's test suite
(`tests/conftest.py`), plus smaller schemas exercising edge cases.
-/

/-- The `Car` model of the test suite. -/
def carModel : Model :=
  ⟨0, "Car",
   [⟨"make", .text true, ⟨some "Make", Option.none, .none, false, true, []⟩⟩,
    ⟨"model", .text true, ⟨some "Model", Option.none, .none, false, true, []⟩⟩,
    ⟨"year", .int, ⟨some "Year", Option.none, .none, false, true, []⟩⟩],
   Option.none⟩

/-- The `ManufacturingPlant` model of the test suite. -/
def plantModel : Model :=
  ⟨1, "ManufacturingPlant",
   [⟨"name", .text true, ⟨some "Factory Name", Option.none, .none, false, true, []⟩⟩,
    ⟨"location", .text true, ⟨some "Location", Option.none, .none, false, false, []⟩⟩],
   Option.none⟩

/-- The sheet spec of the test suite. -/
def carsSpec : SheetSpec := ⟨"Cars", [carModel, plantModel], 1, 2, 3, 2⟩

/-- A sheet spec holding only the `Car` model. -/
def carOnlySpec : SheetSpec := ⟨"Cars", [carModel], 1, 2, 3, 2⟩

/-- A model whose single column declares no header. -/
def anonModel : Model :=
  ⟨2, "Widget", [⟨"make", .text true, ⟨Option.none, Option.none, .none, false, false, []⟩⟩],
   Option.none⟩

/-- A sheet spec holding only the header-less model. -/
def anonSpec : SheetSpec := ⟨"Widgets", [anonModel], 1, 2, 3, 2⟩

/-- A model with an exclusion sentinel on its first column. -/
def exclModel : Model :=
  ⟨3, "Tag",
   [⟨"label", .text true, ⟨some "Label", Option.none, .none, false, false, [.str "skip"]⟩⟩],
   Option.none⟩

/-- A model with an empty schema (no annotated columns). -/
def bareModel : Model := ⟨4, "Bare", [], Option.none⟩

/-- A worksheet with the `Car` header block at column 1, data rows 3-4,
row 5 entirely blank, and a stray non-blank row 6. -/
def dataSheet : Sheet :=
  ⟨fun r c =>
     if r = 2 then
       (match c with
        | 1 => .str "Make" | 2 => .str "Model" | 3 => .str "Year" | _ => .none)
     else if r = 3 then
       (match c with
        | 1 => .str "Toyota" | 2 => .str "Camry" | 3 => .int 2020 | _ => .none)
     else if r = 4 then
       (match c with
        | 1 => .str "Honda" | 2 => .str "Civic" | 3 => .str "2019" | _ => .none)
     else if r = 6 then
       (match c with
        | 1 => .str "Ghost" | 2 => .str "Row" | 3 => .int 1999 | _ => .none)
     else .none,
   6, 3⟩

/-- A worksheet for the exclusion model: header row 2, rows 3 ("skip",
excluded) and 4 ("keep"), blank afterwards. -/
def exclSheet : Sheet :=
  ⟨fun r c =>
     if c = 1 then
       (if r = 2 then .str "Label"
        else if r = 3 then .str "skip"
        else if r = 4 then .str "keep"
        else .none)
     else .none,
   4, 1⟩

/-- A worksheet with nothing in it (openpyxl reports max row/column 1). -/
def emptySheet : Sheet := ⟨fun _ _ => .none, 1, 1⟩

/-- A record as a previous load could have left it. -/
def oldCarRecord : Record :=
  [("make", Value.str "Old"), ("model", Value.str "One"), ("year", Value.int 1980)]

/-- Decidable equality for construction results (guides instance search). -/
instance : DecidableEq (List (Nat × Repo) × List (String × Nat)) :=
  instDecidableEqProd

/-!
## Helper lemmas
-/

/-- `find?` over an append scans the left part first. -/
theorem findOpt_append (p : α → Bool) (l1 l2 : List α) :
    (l1 ++ l2).find? p =
      (match l1.find? p with
       | some a => some a
       | Option.none => l2.find? p) := by
  induction l1 with
  | nil => simp
  | cons x xs ih =>
      by_cases hx : p x
      · simp [List.find?, hx]
      · simp only [List.cons_append, List.find?, Bool.not_eq_true] at *
        simp [hx, ih]

/-- What a successful `find?` over a contiguous range means: the returned
column satisfies the predicate, lies in the range, and is the first one. -/
theorem findOpt_range'_some (p : Nat → Bool) (s n a : Nat)
    (h : (List.range' s n).find? p = some a) :
    p a = true ∧ s ≤ a ∧ a < s + n ∧ ∀ b, s ≤ b → b < a → p b = false := by
  induction n generalizing s with
  | zero => simp [List.range'] at h
  | succ n ih =>
      rw [List.range'_succ] at h
      by_cases hs : p s
      · rw [List.find?_cons_of_pos _ hs] at h
        cases h
        exact ⟨hs, le_refl _, by omega, fun b hb1 hb2 => absurd hb1 (by omega)⟩
      · rw [List.find?_cons_of_neg _ hs] at h
        obtain ⟨h1, h2, h3, h4⟩ := ih (s + 1) h
        refine ⟨h1, by omega, by omega, fun b hb1 hb2 => ?_⟩
        rcases Nat.eq_or_lt_of_le hb1 with rfl | hlt
        · exact Bool.eq_false_iff.mpr hs
        · exact h4 b hlt hb2

/-- A failing `find?` over a contiguous range means no column in the range
satisfies the predicate. -/
theorem findOpt_range'_none (p : Nat → Bool) (s n : Nat)
    (h : (List.range' s n).find? p = Option.none) :
    ∀ b, s ≤ b → b < s + n → p b = false := by
  intro b hb1 hb2
  have := List.find?_eq_none.mp h b (by
    rw [List.mem_range']
    exact ⟨b - s, by omega, by omega⟩)
  simpa using this

/-!
## Results
-/

/-- C9: `Repository.all` rebuilds the repository's record list element by
element (Python `list(self)`), so it returns a list equal to the current
ordered contents; the copy is a separate list, hence mutating it cannot
change the repository, and two consecutive calls with no intervening load
return equal lists. -/
theorem repository_all_returns_contents : ∀ r : Repo, repositoryAll r = r := by
  intro r
  induction r with
  | nil => rfl
  | cons x xs ih => simp [repositoryAll, ih]

/-- C8 counterexample: parsing the empty string as a date does fail, but the
error message of the code is "Date Value was empty", not "empty date" as
the claim states. -/
theorem coercion_table_message_cex :
    dateParse (.str "") = .error "Date Value was empty" ∧
    "Date Value was empty" ≠ "empty date" :=
  ⟨rfl, by decide⟩

/-- C8 (amended): the built-in coercions satisfy the literal table —
integer parse("") = 0, integer parse("2019") = 2019, boolean parse("Y") =
true, boolean parse("0") = false, boolean parse("maybe") fails, date
parse("01-JUN-2025") = 2025-06-01, date parse("2025-06-01") = 2025-06-01 —
and date parse("") fails with the message "Date Value was empty". -/
theorem coercion_table :
    intParse (.str "") = .ok 0 ∧
    intParse (.str "2019") = .ok 2019 ∧
    boolParse (.str "Y") = .ok true ∧
    boolParse (.str "0") = .ok false ∧
    boolParse (.str "maybe") = .error "Invalid boolean: maybe" ∧
    dateParse (.str "01-JUN-2025") = .ok ⟨2025, 6, 1⟩ ∧
    dateParse (.str "2025-06-01") = .ok ⟨2025, 6, 1⟩ ∧
    dateParse (.str "") = .error "Date Value was empty" :=
  ⟨rfl, rfl, rfl, rfl, rfl, rfl, rfl, rfl⟩

/-- C6: a non-blank data row whose raw value (before any coercion) lies in
some column's exclusion set is skipped: no record is built from it, it does
not terminate scanning, and the loop continues with the remaining rows. -/
theorem excluded_row_skipped (ws : Sheet) (sc : Nat) (m : Model) (r : Nat)
    (rest : List Nat)
    (hnb : rowIsBlank (rowVals ws r sc m.columns.length) = false)
    (hex : excludedRow m.columns (rowVals ws r sc m.columns.length) = true) :
    parseRows ws sc m (r :: rest) = parseRows ws sc m rest := by
  simp [parseRows, hnb, hex]

/-- C6 witness: row 3 of the exclusion fixture carries the sentinel "skip",
so the loader's result over rows [3, 4] equals its result over row [4]. -/
theorem excluded_row_skipped_witness :
    rowIsBlank (rowVals exclSheet 3 1 exclModel.columns.length) = false ∧
    excludedRow exclModel.columns (rowVals exclSheet 3 1 exclModel.columns.length) = true ∧
    parseRows exclSheet 1 exclModel [3, 4] = parseRows exclSheet 1 exclModel [4] :=
  ⟨by decide, by decide,
   excluded_row_skipped exclSheet 1 exclModel 3 [4] (by decide) (by decide)⟩

/-- C7: on a non-empty string input, date parsing returns the date component
of a successful ISO-8601 parse; only when the ISO parse fails does it try
the fixed format list, first success winning; the MM/DD/YY pattern comes
before DD/MM/YY in `_DATE_FORMATS` (likewise for the 4-digit-year forms),
so the ambiguous "01/06/25" parses as month 1, day 6 — even though the
DD/MM/YY pattern alone would read it as June 1. -/
theorem date_parse_iso_first (s : String) (hs : pyStrip s ≠ "") :
    (∀ d, isoParse (pyStrip s) = some d → dateParse (.str s) = .ok d) ∧
    (isoParse (pyStrip s) = Option.none →
      dateParse (.str s) =
        (match tryFormats DATE_FORMATS (strUpper (pyStrip s)) with
         | some d => .ok d
         | Option.none => .error ("Invalid date value: " ++ pyRepr (.str s)))) ∧
    (∀ (f : List Tok) (fs : List (List Tok)) (t : String),
       tryFormats (f :: fs) t =
         (match strptimeDate f t with
          | some d => some d
          | Option.none => tryFormats fs t)) ∧
    List.indexOf [Tok.m, Tok.slash, Tok.d, Tok.slash, Tok.y2] DATE_FORMATS <
      List.indexOf [Tok.d, Tok.slash, Tok.m, Tok.slash, Tok.y2] DATE_FORMATS ∧
    List.indexOf [Tok.m, Tok.slash, Tok.d, Tok.slash, Tok.y4] DATE_FORMATS <
      List.indexOf [Tok.d, Tok.slash, Tok.m, Tok.slash, Tok.y4] DATE_FORMATS ∧
    dateParse (.str "01/06/25") = .ok ⟨2025, 1, 6⟩ ∧
    strptimeDate [Tok.m, Tok.slash, Tok.d, Tok.slash, Tok.y2] "01/06/25" = some ⟨2025, 1, 6⟩ ∧
    strptimeDate [Tok.d, Tok.slash, Tok.m, Tok.slash, Tok.y2] "01/06/25" = some ⟨2025, 6, 1⟩ := by
  have hs0 : s ≠ "" := by
    intro h
    rw [h] at hs
    exact hs rfl
  refine ⟨?_, ?_, ?_, by decide, by decide, by decide, by decide, by decide⟩
  · intro d hiso
    simp [dateParse, pyStr, pyEq, hs0, hs, hiso]
  · intro hiso
    simp [dateParse, pyStr, pyEq, hs0, hs, hiso]
  · intro f fs t
    rfl

/-- C7 witness: at the ISO input "2025-06-01" the ISO branch applies. -/
theorem date_parse_iso_first_witness :
    pyStrip "2025-06-01" ≠ "" ∧
    isoParse (pyStrip "2025-06-01") = some ⟨2025, 6, 1⟩ ∧
    dateParse (.str "2025-06-01") = .ok ⟨2025, 6, 1⟩ :=
  ⟨by decide, by decide,
   (date_parse_iso_first "2025-06-01" (by decide)).1 ⟨2025, 6, 1⟩ (by decide)⟩

/-- Row scanning stops at the first entirely blank row: appending a blank
row and anything after it to a run of non-blank rows changes nothing. -/
theorem parseRows_stops_at_blank (ws : Sheet) (sc : Nat) (m : Model)
    (l1 : List Nat) (b : Nat) (l2 : List Nat)
    (hnb : ∀ r ∈ l1, rowIsBlank (rowVals ws r sc m.columns.length) = false)
    (hb : rowIsBlank (rowVals ws b sc m.columns.length) = true) :
    parseRows ws sc m (l1 ++ b :: l2) = parseRows ws sc m l1 := by
  induction l1 with
  | nil => simp [parseRows, hb]
  | cons r rest ih =>
      have hr := hnb r (by simp)
      have ih' := ih (fun x hx => hnb x (by simp [hx]))
      simp only [List.cons_append, parseRows, hr, Bool.false_eq_true, if_false]
      cases hex : excludedRow m.columns (rowVals ws r sc m.columns.length) with
      | true => simpa [hex] using ih'
      | false =>
          simp only [hex, Bool.false_eq_true, if_false]
          cases hbr : buildRecord m (rowVals ws r sc m.columns.length) with
          | error e => rfl
          | ok obj => simp [ih']

/-- C4: row scanning starts at `dataStartRow` and stops at the first row
that is entirely blank across the block's width: the loader's outcome over
the visited rows `dataStartRow .. max_row` equals its outcome over the rows
strictly before the first blank row `b`, so rows at or below `b` are never
loaded, whatever they contain. -/
theorem blank_row_terminates_scan (ws : Sheet) (spec : SheetSpec) (sc : Nat)
    (m : Model) (b : Nat)
    (hb : rowIsBlank (rowVals ws b sc m.columns.length) = true)
    (h1 : spec.dataStartRow ≤ b) (h2 : b ≤ ws.maxRow)
    (h3 : (List.range' spec.dataStartRow (b - spec.dataStartRow)).all
            (fun r => !rowIsBlank (rowVals ws r sc m.columns.length)) = true) :
    parseRows ws sc m (dataRows ws spec) =
      parseRows ws sc m (List.range' spec.dataStartRow (b - spec.dataStartRow)) := by
  have hsplit : dataRows ws spec =
      List.range' spec.dataStartRow (b - spec.dataStartRow) ++
        b :: List.range' (b + 1) (ws.maxRow - b) := by
    unfold dataRows
    rw [show ws.maxRow + 1 - spec.dataStartRow =
          ((ws.maxRow - b) + 1) + (b - spec.dataStartRow) by omega]
    rw [← List.range'_append_1]
    rw [show spec.dataStartRow + (b - spec.dataStartRow) = b by omega]
    rw [List.range'_succ]
  rw [hsplit]
  refine parseRows_stops_at_blank ws sc m _ b _ ?_ hb
  intro r hr
  have := List.all_eq_true.mp h3 r hr
  simpa using this

/-- C4 witness: in the fixture sheet the data region has rows 3 and 4
populated, row 5 entirely blank and row 6 non-blank; scanning the whole
region equals scanning rows [3, 4], which yields exactly 2 records. -/
theorem blank_row_terminates_scan_witness :
    rowIsBlank (rowVals dataSheet 5 1 carModel.columns.length) = true ∧
    rowIsBlank (rowVals dataSheet 6 1 carModel.columns.length) = false ∧
    (List.range' carOnlySpec.dataStartRow (5 - carOnlySpec.dataStartRow)).all
      (fun r => !rowIsBlank (rowVals dataSheet r 1 carModel.columns.length)) = true ∧
    parseRows dataSheet 1 carModel (dataRows dataSheet carOnlySpec) =
      parseRows dataSheet 1 carModel
        (List.range' carOnlySpec.dataStartRow (5 - carOnlySpec.dataStartRow)) ∧
    (parseRows dataSheet 1 carModel
        (List.range' carOnlySpec.dataStartRow (5 - carOnlySpec.dataStartRow))).1.length = 2 :=
  ⟨by decide, by decide, by decide,
   blank_row_terminates_scan dataSheet carOnlySpec 1 carModel 5
     (by decide) (by decide) (by decide) (by decide),
   by decide⟩

/-- The per-sheet loop stops at the first missing sheet (or earlier parse
error): it raises, and the state it leaves equals the state after
processing only the leading sheets whose names are present. -/
theorem loadSheets_stops_at_missing (wb : Workbook) (sheets : List SheetSpec)
    (st : RepoState)
    (h : sheets.any (fun s => !(wb.sheetnames.contains s.name)) = true) :
    (loadSheets wb st sheets).2.isSome = true ∧
    (loadSheets wb st sheets).1 =
      (loadSheets wb st
        (sheets.takeWhile (fun s => wb.sheetnames.contains s.name))).1 := by
  induction sheets generalizing st with
  | nil => simp at h
  | cons s rest ih =>
      by_cases hp : s.name ∈ wb.sheetnames
      · have hp' : wb.sheetnames.contains s.name = true := by
          simpa [List.contains, List.elem_iff] using hp
        have hrest : rest.any (fun s => !(wb.sheetnames.contains s.name)) = true := by
          simp only [List.any_cons, hp', Bool.not_true, Bool.false_or] at h
          exact h
        simp only [loadSheets, if_pos hp, List.takeWhile_cons, hp', if_true]
        cases hpm : parseModels (wb.sheet s.name) s st s.models with
        | mk st' err =>
            cases err with
            | none => exact ih st' hrest
            | some e => exact ⟨rfl, rfl⟩
      · have hp' : wb.sheetnames.contains s.name = false := by
          simpa [List.contains, List.elem_iff] using hp
        simp [loadSheets, hp, hp', List.takeWhile_cons]

/-- C1 (amended): if some spec's sheet name is absent from the document,
`load_data` raises — but only after clearing every repository and
repopulating the repositories of the sheets that precede the first failure:
the state it leaves is the cleared state advanced through the leading
present sheets, not the untouched pre-call state. -/
theorem load_data_missing_sheet (sheets : List SheetSpec) (st : RepoState)
    (wb : Workbook)
    (h : sheets.any (fun s => !(wb.sheetnames.contains s.name)) = true) :
    (loadData sheets st wb).2.isSome = true ∧
    (loadData sheets st wb).1 =
      (loadSheets wb (clearRepos st)
        (sheets.takeWhile (fun s => wb.sheetnames.contains s.name))).1 := by
  unfold loadData
  exact loadSheets_stops_at_missing wb sheets (clearRepos st) h

/-- C1 witness: a workbook with no sheets at all makes the single-spec
orchestrator raise, leaving the cleared state. -/
theorem load_data_missing_sheet_witness :
    ([carOnlySpec].any
      (fun s => !((⟨[], fun _ => emptySheet⟩ : Workbook).sheetnames.contains s.name))) = true ∧
    ((loadData [carOnlySpec] [(0, [oldCarRecord])] ⟨[], fun _ => emptySheet⟩).2.isSome = true ∧
     (loadData [carOnlySpec] [(0, [oldCarRecord])] ⟨[], fun _ => emptySheet⟩).1 =
       (loadSheets ⟨[], fun _ => emptySheet⟩ (clearRepos [(0, [oldCarRecord])])
         ([carOnlySpec].takeWhile
           (fun s => (⟨[], fun _ => emptySheet⟩ : Workbook).sheetnames.contains s.name))).1) :=
  ⟨by decide,
   load_data_missing_sheet [carOnlySpec] [(0, [oldCarRecord])] ⟨[], fun _ => emptySheet⟩
     (by decide)⟩

/-- C1 counterexample: with one spec, a workbook missing that sheet, and a
repository holding a record from an earlier load, `load_data` raises the
missing-sheet error with the repository cleared — the repositories are NOT
left unmodified as the claim states. -/
theorem load_data_missing_sheet_cex :
    loadData [carOnlySpec] [(0, [oldCarRecord])] ⟨[], fun _ => emptySheet⟩ =
      ([(0, [])], some (missingMsg "Cars")) ∧
    ([(0, ([] : Repo))] : RepoState) ≠ [(0, [oldCarRecord])] :=
  ⟨by decide, by decide⟩

/-- Updating one model's repository leaves every other lookup unchanged. -/
theorem lookupRepo_updateRepo_ne (st : RepoState) (id1 id2 : Nat)
    (f : Repo → Repo) (h : id1 ≠ id2) :
    lookupRepo (updateRepo st id1 f) id2 = lookupRepo st id2 := by
  induction st with
  | nil => rfl
  | cons p rest ih =>
      show lookupRepo ((if p.1 = id1 then (p.1, f p.2) else p) :: updateRepo rest id1 f) id2
          = lookupRepo (p :: rest) id2
      by_cases h2 : p.1 = id2
      · have h1 : p.1 ≠ id1 := by omega
        rw [if_neg h1]
        unfold lookupRepo
        rw [List.find?_cons_of_pos _ (by simpa using h2),
            List.find?_cons_of_pos _ (by simpa using h2)]
      · by_cases h1 : p.1 = id1
        · rw [if_pos h1]
          unfold lookupRepo
          rw [List.find?_cons_of_neg _ (by simp [h2]),
              List.find?_cons_of_neg _ (by simp [h2])]
          simpa [lookupRepo] using ih
        · rw [if_neg h1]
          unfold lookupRepo
          rw [List.find?_cons_of_neg _ (by simp [h2]),
              List.find?_cons_of_neg _ (by simp [h2])]
          simpa [lookupRepo] using ih

/-- Parsing a sheet never touches the repository of a model identity whose
header block is not located (for every model of that identity on the sheet). -/
theorem parseModels_keeps_repo (ws : Sheet) (spec : SheetSpec) (st : RepoState)
    (ms : List Model) (id : Nat)
    (h : ms.all (fun m' =>
        (!decide (m'.id = id)) || decide (findHeader ws spec m' = Option.none)) = true) :
    lookupRepo (parseModels ws spec st ms).1 id = lookupRepo st id := by
  induction ms generalizing st with
  | nil => rfl
  | cons m rest ih =>
      rw [List.all_cons, Bool.and_eq_true] at h
      obtain ⟨hm, hrest⟩ := h
      unfold parseModels
      cases hf : findHeader ws spec m with
      | none => exact ih st hrest
      | some found =>
          have hid : m.id ≠ id := by
            intro e
            rw [e, hf] at hm
            simp at hm
          cases hp2 : (parseRows ws found.2 m (dataRows ws spec)).2 with
          | none =>
              simp only [hp2]
              rw [ih _ hrest]
              exact lookupRepo_updateRepo_ne st m.id id _ hid
          | some e =>
              simp only [hp2]
              exact lookupRepo_updateRepo_ne st m.id id _ hid

/-- The whole per-sheet loop keeps such a repository unchanged. -/
theorem loadSheets_keeps_repo (wb : Workbook) (sheets : List SheetSpec)
    (st : RepoState) (id : Nat)
    (h : sheets.all (fun s => s.models.all (fun m' =>
        (!decide (m'.id = id)) ||
          decide (findHeader (wb.sheet s.name) s m' = Option.none))) = true) :
    lookupRepo (loadSheets wb st sheets).1 id = lookupRepo st id := by
  induction sheets generalizing st with
  | nil => rfl
  | cons s rest ih =>
      rw [List.all_cons, Bool.and_eq_true] at h
      obtain ⟨hs, hrest⟩ := h
      unfold loadSheets
      by_cases hp : s.name ∈ wb.sheetnames
      · rw [if_pos hp]
        cases hpm : parseModels (wb.sheet s.name) s st s.models with
        | mk st' err =>
            have hkeep : lookupRepo st' id = lookupRepo st id := by
              have := parseModels_keeps_repo (wb.sheet s.name) s st s.models id hs
              rw [hpm] at this
              exact this
            cases err with
            | none => rw [ih st' hrest]; exact hkeep
            | some e => exact hkeep
      · rw [if_neg hp]
  
/-- Clearing empties every repository but keeps the key set. -/
theorem lookupRepo_clearRepos (st : RepoState) (id : Nat) :
    lookupRepo (clearRepos st) id = (lookupRepo st id).map (fun _ => ([] : Repo)) := by
  induction st with
  | nil => rfl
  | cons p rest ih =>
      show lookupRepo ((p.1, ([] : Repo)) :: clearRepos rest) id = _
      by_cases h2 : p.1 = id
      · unfold lookupRepo
        rw [List.find?_cons_of_pos _ (by simpa using h2),
            List.find?_cons_of_pos _ (by simpa using h2)]
        rfl
      · unfold lookupRepo
        rw [List.find?_cons_of_neg _ (by simp [h2]),
            List.find?_cons_of_neg _ (by simp [h2])]
        simpa [lookupRepo] using ih

/-- C5: the Header Locator tries candidate start columns from 1 upward and
returns the first one whose width-many normalized header cells equal the
expected labels positionally; a sheet narrower than the block yields
"not found"; "not found" means no candidate in range matches; and whenever
every occurrence of a model identity fails to locate, that identity's
repository ends `load_data` cleared to zero records rather than an error. -/
theorem header_locator_spec (ws : Sheet) (spec : SheetSpec) (m : Model)
    (hne : m.columns ≠ []) :
    (ws.maxCol < m.columns.length → findHeader ws spec m = Option.none) ∧
    (∀ rr sc, findHeader ws spec m = some (rr, sc) →
      rr = spec.headerRow ∧ 1 ≤ sc ∧ sc + m.columns.length ≤ ws.maxCol + 1 ∧
      headerAt ws spec.headerRow sc m.columns.length = expectedHeaders m ∧
      ∀ sc', 1 ≤ sc' → sc' < sc →
        headerAt ws spec.headerRow sc' m.columns.length ≠ expectedHeaders m) ∧
    (findHeader ws spec m = Option.none →
      ∀ sc, 1 ≤ sc → sc + m.columns.length ≤ ws.maxCol + 1 →
        headerAt ws spec.headerRow sc m.columns.length ≠ expectedHeaders m) ∧
    (∀ (sheets : List SheetSpec) (st : RepoState) (wb : Workbook),
      (sheets.all (fun s => s.models.all (fun m' =>
          (!decide (m'.id = m.id)) ||
            decide (findHeader (wb.sheet s.name) s m' = Option.none))) = true) →
      lookupRepo ((loadData sheets st wb).1) m.id =
        (lookupRepo st m.id).map (fun _ => ([] : Repo))) := by
  have hexp : expectedHeaders m ≠ [] := by
    unfold expectedHeaders
    simpa using hne
  have hwidth : (expectedHeaders m).length = m.columns.length := by
    unfold expectedHeaders
    simp
  refine ⟨?_, ?_, ?_, ?_⟩
  · intro hlt
    unfold findHeader
    rw [if_neg hexp]
    rw [show ws.maxCol + 1 - (expectedHeaders m).length = 0 by omega]
    rfl
  · intro rr sc h
    unfold findHeader at h
    rw [if_neg hexp] at h
    cases hf : (List.range' 1 (ws.maxCol + 1 - (expectedHeaders m).length)).find?
        (fun sc =>
          decide (headerAt ws spec.headerRow sc (expectedHeaders m).length =
            expectedHeaders m)) with
    | none => rw [hf] at h; simp at h
    | some a =>
        rw [hf] at h
        simp only [Option.map_some'] at h
        have hpair := Option.some.inj h
        obtain ⟨hrr, hsc⟩ : rr = spec.headerRow ∧ a = sc :=
          ⟨(congrArg Prod.fst hpair).symm, congrArg Prod.snd hpair⟩
        subst hrr
        subst hsc
        obtain ⟨hp, hges, hlt, hfirst⟩ := findOpt_range'_some _ _ _ _ hf
        rw [hwidth] at hp hlt
        refine ⟨rfl, hges, by omega, by simpa using hp, ?_⟩
        intro sc' h1 h2
        have := hfirst sc' h1 h2
        rw [hwidth] at this
        simpa using this
  · intro h sc h1 h2
    unfold findHeader at h
    rw [if_neg hexp] at h
    cases hf : (List.range' 1 (ws.maxCol + 1 - (expectedHeaders m).length)).find?
        (fun sc =>
          decide (headerAt ws spec.headerRow sc (expectedHeaders m).length =
            expectedHeaders m)) with
    | some a => rw [hf] at h; simp at h
    | none =>
        have := findOpt_range'_none _ _ _ hf sc h1 (by omega)
        rw [hwidth] at this
        simpa using this
  · intro sheets st wb hall
    unfold loadData
    rw [loadSheets_keeps_repo wb sheets (clearRepos st) m.id hall,
        lookupRepo_clearRepos]

/-- C5 witness: in the data fixture the Car block is located at `(2, 1)`,
its header cells match there, and an identity that never locates ends a
load with zero records. -/
theorem header_locator_spec_witness :
    carModel.columns ≠ [] ∧
    findHeader dataSheet carOnlySpec carModel = some (2, 1) ∧
    headerAt dataSheet 2 1 carModel.columns.length = expectedHeaders carModel :=
  ⟨by decide, by decide,
   ((header_locator_spec dataSheet carOnlySpec carModel (by decide)).2.1 2 1
      (by decide)).2.2.2.1⟩

/-- C10: a record type with no declared columns has an empty expected
header sequence; the Header Locator answers "not found" on every sheet
without scanning, and under `load_data` such an identity's repository ends
every load cleared to zero records, never an error. -/
theorem empty_schema_never_located (ws : Sheet) (spec : SheetSpec) (m : Model)
    (h : m.columns = []) :
    findHeader ws spec m = Option.none ∧
    (∀ (sheets : List SheetSpec) (st : RepoState) (wb : Workbook),
      (sheets.all (fun s => s.models.all (fun m' =>
          (!decide (m'.id = m.id)) || m'.columns.isEmpty)) = true) →
      lookupRepo ((loadData sheets st wb).1) m.id =
        (lookupRepo st m.id).map (fun _ => ([] : Repo))) := by
  have hnone : ∀ (ws' : Sheet) (spec' : SheetSpec) (m' : Model), m'.columns = [] →
      findHeader ws' spec' m' = Option.none := by
    intro ws' spec' m' h'
    unfold findHeader expectedHeaders
    rw [h']
    rfl
  refine ⟨hnone ws spec m h, ?_⟩
  intro sheets st wb hall
  have hconv : sheets.all (fun s => s.models.all (fun m' =>
      (!decide (m'.id = m.id)) ||
        decide (findHeader (wb.sheet s.name) s m' = Option.none))) = true := by
    rw [List.all_eq_true] at hall ⊢
    intro s hsmem
    have hs := hall s hsmem
    rw [List.all_eq_true] at hs ⊢
    intro m' hm'
    have hm := hs m' hm'
    by_cases hid : m'.id = m.id
    · have hm2 : m'.id ≠ m.id ∨ m'.columns.isEmpty = true := by simpa using hm
      have hemp : m'.columns.isEmpty = true := by
        rcases hm2 with h1 | h1
        · exact absurd hid h1
        · exact h1
      have hcols : m'.columns = [] := by simpa using hemp
      simp [hnone _ _ _ hcols]
    · simp [hid]
  unfold loadData
  rw [loadSheets_keeps_repo wb sheets (clearRepos st) m.id hconv,
      lookupRepo_clearRepos]

/-- C10 witness: the column-less model is never located in the data fixture
and a load over a sheet listing it leaves its repository at zero records. -/
theorem empty_schema_never_located_witness :
    bareModel.columns = [] ∧
    findHeader dataSheet carOnlySpec bareModel = Option.none ∧
    lookupRepo ((loadData [⟨"Cars", [bareModel], 1, 2, 3, 2⟩] [(4, [oldCarRecord])]
        ⟨["Cars"], fun _ => dataSheet⟩).1) 4 = some [] :=
  ⟨rfl,
   (empty_schema_never_located dataSheet carOnlySpec bareModel rfl).1,
   (empty_schema_never_located dataSheet carOnlySpec bareModel rfl).2
     [⟨"Cars", [bareModel], 1, 2, 3, 2⟩] [(4, [oldCarRecord])]
     ⟨["Cars"], fun _ => dataSheet⟩ (by decide)⟩

/-- The registration loop fails exactly when the derived names of the
remaining occurrences are not pairwise distinct or one of them is already
taken by the accumulated `used` set. -/
theorem registerModels_err_iff (ms : List Model) (used : List String)
    (repos : List (Nat × Repo)) (exposed : List (String × Nat)) :
    (registerModels used repos exposed ms).isOk = false ↔
      ¬ ((ms.map repoNameForModel).Nodup ∧
         ∀ n ∈ ms.map repoNameForModel, n ∉ used) := by
  induction ms generalizing used repos exposed with
  | nil => simp [registerModels, Except.isOk, Except.toBool]
  | cons m rest ih =>
      by_cases hrn : repoNameForModel m ∈ used
      · simp only [registerModels, if_pos hrn]
        constructor
        · intro _ hc
          exact hc.2 (repoNameForModel m) (by simp) hrn
        · intro _
          rfl
      · simp only [registerModels, if_neg hrn]
        rw [ih]
        constructor
        · intro h hc
          apply h
          refine ⟨(List.nodup_cons.mp (by simpa using hc.1)).2, ?_⟩
          intro n hn hmem
          rcases List.mem_cons.mp hmem with h1 | h1
          · subst h1
            exact (List.nodup_cons.mp (by simpa using hc.1)).1 hn
          · exact hc.2 n (by simp [hn]) h1
        · intro h hc
          apply h
          constructor
          · rw [List.map_cons, List.nodup_cons]
            refine ⟨?_, hc.1⟩
            intro hmem
            exact hc.2 _ hmem (by simp)
          · intro n hn
            rw [List.map_cons, List.mem_cons] at hn
            rcases hn with h1 | h1
            · subst h1
              exact hrn
            · have h2 := hc.2 n h1
              intro hmem
              exact h2 (by simp [hmem])

/-- A successful registration appends one empty repository per occurrence,
keyed by identity, and exposes each under its derived name, in order. -/
theorem registerModels_ok (ms : List Model) (used : List String)
    (repos : List (Nat × Repo)) (exposed : List (String × Nat))
    (r : List (Nat × Repo)) (e : List (String × Nat))
    (h : registerModels used repos exposed ms = .ok (r, e)) :
    r = repos ++ ms.map (fun m => (m.id, ([] : Repo))) ∧
    e = exposed ++ ms.map (fun m => (repoNameForModel m, m.id)) := by
  induction ms generalizing used repos exposed with
  | nil =>
      simp only [registerModels] at h
      have hpair := Except.ok.inj h
      exact ⟨by simpa using (congrArg Prod.fst hpair).symm,
             by simpa using (congrArg Prod.snd hpair).symm⟩
  | cons m rest ih =>
      by_cases hrn : repoNameForModel m ∈ used
      · simp [registerModels, if_pos hrn] at h
      · simp only [registerModels, if_neg hrn] at h
        obtain ⟨h1, h2⟩ := ih _ _ _ h
        constructor
        · rw [h1]
          simp [List.append_assoc]
        · rw [h2]
          simp [List.append_assoc]

/-- C3 counterexample: listing the same record type on two sheets makes
construction fail with the duplicate-name error although no two DIFFERENT
record types derive the same repository name — the referenced occurrences
are one and the same type, so the claim's "if and only if" is false. -/
theorem construction_duplicate_cex :
    buildRepos [⟨"A", [carModel], 1, 2, 3, 2⟩, ⟨"B", [carModel], 1, 2, 3, 2⟩] =
      .error ("Duplicate repo name " ++ String.singleton quoteCh ++ "cars" ++
        String.singleton quoteCh ++ " for model Car") ∧
    allModels [⟨"A", [carModel], 1, 2, 3, 2⟩, ⟨"B", [carModel], 1, 2, 3, 2⟩] =
      [carModel, carModel] :=
  ⟨by decide, rfl⟩

/-- C3 (amended): construction fails exactly when the derived pluralized
names of the (sheet, model) occurrences are not pairwise distinct — so a
type listed twice also fails — or one of them collides with a pre-existing
orchestrator attribute (`sheets`, `_repos`); construction performs no file
I/O, and on success every occurrence gets exactly one empty repository,
keyed by the type and exposed under its derived name, in order. -/
theorem construction_duplicate_iff (sheets : List SheetSpec) :
    ((buildRepos sheets).isOk = false ↔
      ¬ (((allModels sheets).map repoNameForModel).Nodup ∧
         ∀ n ∈ (allModels sheets).map repoNameForModel, n ∉ reservedNames)) ∧
    (∀ r e, buildRepos sheets = .ok (r, e) →
      r = (allModels sheets).map (fun m => (m.id, ([] : Repo))) ∧
      e = (allModels sheets).map (fun m => (repoNameForModel m, m.id))) := by
  constructor
  · exact registerModels_err_iff (allModels sheets) reservedNames [] []
  · intro r e h
    simpa using registerModels_ok (allModels sheets) reservedNames [] [] r e h

/-- C3 witness: the test-suite schema constructs successfully, with one
empty repository per type under the derived names. -/
theorem construction_duplicate_iff_witness :
    buildRepos [carsSpec] =
      .ok ([(0, []), (1, [])], [("cars", 0), ("manufacturing_plants", 1)]) ∧
    ([(0, ([] : Repo)), (1, [])] =
        (allModels [carsSpec]).map (fun m => (m.id, ([] : Repo))) ∧
     [("cars", 0), ("manufacturing_plants", 1)] =
        (allModels [carsSpec]).map (fun m => (repoNameForModel m, m.id))) :=
  ⟨by decide,
   (construction_duplicate_iff [carsSpec]).2 [(0, []), (1, [])]
     [("cars", 0), ("manufacturing_plants", 1)] (by decide)⟩

/-- Looking up a column inside one block's writes reads off its label. -/
theorem lookupCol_blockWrites (labels : List String) (c0 j : Nat) :
    lookupCol (blockWrites c0 labels) (c0 + j) = labels[j]? := by
  induction labels generalizing c0 j with
  | nil => simp [blockWrites, lookupCol]
  | cons l ls ih =>
      cases j with
      | zero =>
          unfold blockWrites lookupCol
          rw [List.find?_cons_of_pos _ (by simp)]
          simp
      | succ j =>
          unfold blockWrites lookupCol
          rw [List.find?_cons_of_neg _ (by simp)]
          have := ih (c0 + 1) j
          rw [show c0 + (j + 1) = (c0 + 1) + j by omega]
          simpa [lookupCol] using this

/-- One block's writes stay inside its column span. -/
theorem blockWrites_col_bounds (labels : List String) (c0 : Nat) :
    ∀ p ∈ blockWrites c0 labels, c0 ≤ p.1 ∧ p.1 < c0 + labels.length := by
  induction labels generalizing c0 with
  | nil => simp [blockWrites]
  | cons l ls ih =>
      intro p hp
      rcases List.mem_cons.mp hp with h | h
      · subst h
        simp
      · obtain ⟨h1, h2⟩ := ih (c0 + 1) p h
        refine ⟨by omega, ?_⟩
        simp only [List.length_cons]
        omega

/-- All header writes from cursor `cur` onwards land at column ≥ `cur`. -/
theorem headerWritesAux_col_ge (gap : Nat) (ms : List Model) :
    ∀ cur : Nat, ∀ p ∈ headerWritesAux gap cur ms, cur ≤ p.1 := by
  induction ms with
  | nil => intro cur p hp; simp [headerWritesAux] at hp
  | cons m rest ih =>
      intro cur p hp
      unfold headerWritesAux at hp
      rcases List.mem_append.mp hp with h | h
      · exact (blockWrites_col_bounds _ _ p h).1
      · have := ih _ p h
        omega

/-- Every laid-out block starts at or after the running cursor, and its
model is one of the listed models. -/
theorem blockStarts_ge (gap : Nat) (ms : List Model) :
    ∀ cur : Nat, ∀ p ∈ blockStarts gap cur ms, cur ≤ p.2 ∧ p.1 ∈ ms := by
  induction ms with
  | nil => intro cur p hp; simp [blockStarts] at hp
  | cons m rest ih =>
      intro cur p hp
      unfold blockStarts at hp
      rcases List.mem_cons.mp hp with h | h
      · subst h
        simp
      · obtain ⟨h1, h2⟩ := ih _ p h
        exact ⟨by omega, by simp [h2]⟩

/-- Looking up a laid-out block's column among all header writes of the
sheet reads off that block's own label: blocks never overlap (the cursor
only moves right), so no other block's write shadows it. -/
theorem lookupCol_headerWritesAux (gap : Nat) (ms : List Model)
    (cur : Nat) (m : Model) (sc : Nat)
    (hmem : (m, sc) ∈ blockStarts gap cur ms) (j : Nat)
    (hj : j < (headerLabels m).length) :
    lookupCol (headerWritesAux gap cur ms) (sc + j) = (headerLabels m)[j]? := by
  induction ms generalizing cur with
  | nil => simp [blockStarts] at hmem
  | cons m0 rest ih =>
      unfold blockStarts at hmem
      rcases List.mem_cons.mp hmem with h | h
      · have hm : m = m0 := congrArg Prod.fst h
        have hsc : sc = cur := congrArg Prod.snd h
        subst hm
        subst hsc
        unfold headerWritesAux lookupCol
        rw [findOpt_append]
        have hL1 := lookupCol_blockWrites (headerLabels m) sc j
        unfold lookupCol at hL1
        cases hf : (blockWrites sc (headerLabels m)).find?
            (fun p => decide (p.1 = sc + j)) with
        | none =>
            rw [hf] at hL1
            rw [List.getElem?_eq_getElem hj] at hL1
            simp at hL1
        | some a =>
            rw [hf] at hL1
            simpa using hL1
      · have hge := (blockStarts_ge gap rest _ (m, sc) h).1
        unfold headerWritesAux lookupCol
        rw [findOpt_append]
        have hnone : (blockWrites cur (headerLabels m0)).find?
            (fun p => decide (p.1 = sc + j)) = Option.none := by
          apply List.find?_eq_none.mpr
          intro p hp
          have hb := blockWrites_col_bounds (headerLabels m0) cur p hp
          simp only [decide_eq_true_eq]
          omega
        rw [hnone]
        have := ih _ h
        simpa [lookupCol] using this

/-- Every write's column is bounded by the fold-maximum. -/
theorem le_maxColOf (writes : List (Nat × String)) :
    ∀ p ∈ writes, p.1 ≤ maxColOf writes := by
  induction writes with
  | nil => simp
  | cons w rest ih =>
      intro p hp
      rcases List.mem_cons.mp hp with h | h
      · subst h
        show p.1 ≤ max p.1 (maxColOf rest)
        omega
      · have := ih p h
        show p.1 ≤ max w.1 (maxColOf rest)
        omega

/-- When every declared header is present and non-empty, the labels the
template writes normalize (strip) to exactly the labels the locator
expects. -/
theorem headerLabels_strip_eq_expected (m : Model)
    (h : m.columns.all (fun c =>
        match c.spec.header with
        | some hh => !(hh == "")
        | Option.none => false) = true) :
    (headerLabels m).map pyStrip = expectedHeaders m := by
  unfold headerLabels expectedHeaders
  rw [List.map_map]
  apply List.map_congr_left
  intro c hc
  have hcall := List.all_eq_true.mp h c hc
  cases hh : c.spec.header with
  | none =>
      rw [hh] at hcall
      simp at hcall
  | some s =>
      rw [hh] at hcall
      have hs : ¬(s = "") := by simpa using hcall
      simp [hh, hs, normalizeHeader, pyStr]

/-- C2 (amended): when every column of every model on a sheet declares a
non-empty header (and the title row differs from the header row, which the
merged title cell requires anyway), the labels template generation emits
normalize to exactly the labels the Header Locator expects, and running the
locator on the freshly generated sheet locates every model's block: it
returns the header row paired with the placed start column or an earlier
candidate column that equally matches (the locator keeps the first match).
A column with a missing (or empty) declared header breaks this: the
template then writes the field name while the locator expects the empty
string (see the counterexample). -/
theorem template_blocks_locatable (spec : SheetSpec)
    (hhdr : spec.models.all (fun m => m.columns.all (fun c =>
        match c.spec.header with
        | some h => !(h == "")
        | Option.none => false)) = true)
    (_hrows : spec.titleRow ≠ spec.headerRow)
    (hne : spec.models.all (fun m => !m.columns.isEmpty) = true) :
    ∀ p ∈ blockStarts spec.templateTableGap 1 spec.models,
      (headerLabels p.1).map pyStrip = expectedHeaders p.1 ∧
      ∃ sc, 1 ≤ sc ∧ sc ≤ p.2 ∧
        findHeader (genSheet spec) spec p.1 = some (spec.headerRow, sc) := by
  intro p hp
  obtain ⟨m, sc⟩ := p
  have hbs := blockStarts_ge spec.templateTableGap spec.models 1 (m, sc) hp
  have hmem : m ∈ spec.models := hbs.2
  have hsc1 : 1 ≤ sc := hbs.1
  have hmh := List.all_eq_true.mp hhdr m hmem
  have hstrip := headerLabels_strip_eq_expected m hmh
  have hmne : m.columns ≠ [] := by
    have := List.all_eq_true.mp hne m hmem
    simpa using this
  have hlen : (headerLabels m).length = m.columns.length := by
    simp [headerLabels]
  have helen : (expectedHeaders m).length = m.columns.length := by
    simp [expectedHeaders]
  have hw1 : 1 ≤ m.columns.length := by
    cases hcol : m.columns with
    | nil => exact absurd hcol hmne
    | cons a b => simp [hcol]
  refine ⟨hstrip, ?_⟩
  have hcell : ∀ (j : Nat) (hj : j < m.columns.length),
      (genSheet spec).cell spec.headerRow (sc + j) =
        .str ((headerLabels m).get ⟨j, by omega⟩) := by
    intro j hj
    have hj' : j < (headerLabels m).length := by omega
    have hL := lookupCol_headerWritesAux spec.templateTableGap spec.models 1 m sc hp j hj'
    rw [List.getElem?_eq_getElem hj'] at hL
    simp [genSheet, hL]
  have hAt : headerAt (genSheet spec) spec.headerRow sc (expectedHeaders m).length
      = expectedHeaders m := by
    rw [helen]
    apply List.ext_getElem
    · simp [headerAt, helen]
    · intro i h1 h2
      have hi : i < m.columns.length := by
        simpa [headerAt] using h1
      simp only [headerAt, List.getElem_map, List.getElem_range]
      rw [hcell i hi]
      have hstep : normalizeHeader (.str ((headerLabels m).get ⟨i, by omega⟩)) =
          pyStrip ((headerLabels m).get ⟨i, by omega⟩) := by
        simp [normalizeHeader, pyStr]
      rw [hstep]
      have hlm : i < (List.map pyStrip (headerLabels m)).length := by
        rw [List.length_map]
        omega
      have h5 : (List.map pyStrip (headerLabels m))[i]? = (expectedHeaders m)[i]? := by
        rw [hstrip]
      rw [List.getElem?_eq_getElem hlm, List.getElem?_eq_getElem h2] at h5
      have h6 := Option.some.inj h5
      rw [List.getElem_map] at h6
      simpa using h6
  have hbound : sc + m.columns.length ≤ (genSheet spec).maxCol + 1 := by
    have hj' : m.columns.length - 1 < (headerLabels m).length := by omega
    have hL := lookupCol_headerWritesAux spec.templateTableGap spec.models 1 m sc hp
      (m.columns.length - 1) hj'
    rw [List.getElem?_eq_getElem hj'] at hL
    unfold lookupCol at hL
    cases hf : (headerWritesAux spec.templateTableGap 1 spec.models).find?
        (fun q => decide (q.1 = sc + (m.columns.length - 1))) with
    | none =>
        rw [hf] at hL
        simp at hL
    | some a =>
        have hamem := List.mem_of_find?_eq_some hf
        have hacol : a.1 = sc + (m.columns.length - 1) := by
          have := List.find?_some hf
          simpa using this
        have hmax := le_maxColOf _ a hamem
        have hmax2 : maxColOf (headerWritesAux spec.templateTableGap 1 spec.models) ≤
            (genSheet spec).maxCol := by
          simp only [genSheet]
          exact Nat.le_max_left _ _
        omega
  have hexp : expectedHeaders m ≠ [] := by
    unfold expectedHeaders
    simpa using hmne
  have hpred : decide (headerAt (genSheet spec) spec.headerRow sc
      (expectedHeaders m).length = expectedHeaders m) = true := by
    simp [hAt]
  unfold findHeader
  rw [if_neg hexp]
  cases hf : (List.range' 1 ((genSheet spec).maxCol + 1 - (expectedHeaders m).length)).find?
      (fun c => decide (headerAt (genSheet spec) spec.headerRow c
        (expectedHeaders m).length = expectedHeaders m)) with
  | none =>
      have hnone := findOpt_range'_none _ _ _ hf sc hsc1 (by omega)
      rw [hpred] at hnone
      exact absurd hnone (by simp)
  | some a =>
      obtain ⟨hpa, h1a, h2a, hfirst⟩ := findOpt_range'_some _ _ _ _ hf
      have hasc : a ≤ sc := by
        by_contra hcon
        push_neg at hcon
        have hbad := hfirst sc hsc1 hcon
        rw [hpred] at hbad
        exact absurd hbad (by simp)
      exact ⟨a, h1a, hasc, by simp⟩

/-- C2 counterexample: a column with no declared header breaks the claimed
template/locator label agreement.  The template writes the field name
("make") while the locator expects the normalized declared header (the
empty string), so on the freshly generated template the locator does not
find the block at the column where the template placed it (column 1) — it
finds nothing at all, and the model silently yields zero records. -/
theorem template_headers_cex :
    headerLabels anonModel = ["make"] ∧
    expectedHeaders anonModel = [""] ∧
    blockStarts 2 1 [anonModel] = [(anonModel, 1)] ∧
    lookupCol (headerWritesAux 2 1 [anonModel]) 1 = some "make" ∧
    findHeader (genSheet anonSpec) anonSpec anonModel = Option.none :=
  ⟨rfl, rfl, rfl, rfl, by decide⟩

/-- C2 witness: on the test-suite schema (all headers declared), the second
block is placed at column 6 and the locator finds it exactly there. -/
theorem template_blocks_locatable_witness :
    (carsSpec.models.all fun m => m.columns.all fun c =>
        match c.spec.header with
        | some h => !(h == "")
        | Option.none => false) = true ∧
    carsSpec.titleRow ≠ carsSpec.headerRow ∧
    (carsSpec.models.all fun m => !m.columns.isEmpty) = true ∧
    ((headerLabels plantModel).map pyStrip = expectedHeaders plantModel ∧
      ∃ sc, 1 ≤ sc ∧ sc ≤ 6 ∧
        findHeader (genSheet carsSpec) carsSpec plantModel =
          some (carsSpec.headerRow, sc)) ∧
    findHeader (genSheet carsSpec) carsSpec plantModel = some (2, 6) :=
  ⟨by decide, by decide, by decide,
   template_blocks_locatable carsSpec (by decide) (by decide) (by decide)
     (plantModel, 6) (List.mem_cons_of_mem _ (List.mem_cons_self _ _)),
   by decide⟩
